import Mathlib

/-!
Shallow embedding of `src/optimizer.py` (module `alocacaodeprodutos`).

Python floats are modelled as exact rationals (`ℚ`); `math.floor` is `Int.floor`
(which on `ℚ` is the computable `Rat.floor`); Python's `round(x, 1)` (banker's
rounding, half to even) is modelled exactly on `ℚ` by `pyRound1`.

The optimizer's mutable attributes (`best_orientation`, `best_count`,
`best_distribution`, `best_overhang_cm`) are modelled by an explicit state
record `OptState` threaded through `optimize`.  `best_overhang_cm` is an
`Option ℚ` because the Python attribute does not exist until `optimize`
first assigns it.

Number-to-text formatting inside the trace log is abstracted by `fmtQ`
(the spec declares the exact wording of the log a presentation concern);
the log's structure — header, one line per tested orientation, final
verdict — follows the source.
-/

namespace Alocacao

/-- The `Dimension3D` dataclass of the source: three float fields `x`, `y`, `z`. -/
structure Dimension3D where
  x : ℚ
  y : ℚ
  z : ℚ
  deriving DecidableEq, Repr

/-- Method `as_tuple` of `Dimension3D`. -/
def Dimension3D.as_tuple (d : Dimension3D) : ℚ × ℚ × ℚ :=
  (d.x, d.y, d.z)

/-- Class `Container` of the source: a `Dimension3D` plus a `y_tolerance`.
The Python constructor stores its arguments unconditionally (no validation). -/
structure Container where
  dimensions : Dimension3D
  y_tolerance : ℚ
  deriving DecidableEq, Repr

/-- The source constructor `Container.__init__(x, y, z, y_tolerance)`:
it only assigns the fields, performing no checks and raising no error. -/
def Container.init (x y z y_tolerance : ℚ) : Container :=
  { dimensions := { x := x, y := y, z := z }, y_tolerance := y_tolerance }

/-- Python constructors can signal failure only by raising an exception;
`Container.__init__` contains no raise statement and no check of its arguments,
so its exception channel — made explicit here as `Except` — is never used:
construction succeeds on every input. -/
def Container.initE (x y z y_tolerance : ℚ) : Except String Container :=
  Except.ok (Container.init x y z y_tolerance)

/-- Property `effective_y` of `Container`: `dimensions.y + y_tolerance`. -/
def Container.effective_y (c : Container) : ℚ :=
  c.dimensions.y + c.y_tolerance

/-- Class `Product` of the source: a tuple of three floats. -/
structure Product where
  dimensions : ℚ × ℚ × ℚ
  deriving DecidableEq, Repr

/-- The source constructor `Product.__init__(length, width, height)`:
it only stores the tuple, performing no checks and raising no error. -/
def Product.init (length width height : ℚ) : Product :=
  { dimensions := (length, width, height) }

/-- Like `Container.initE`: `Product.__init__` contains no raise statement, so
the explicit exception channel is never used. -/
def Product.initE (length width height : ℚ) : Except String Product :=
  Except.ok (Product.init length width height)

/-- Method `get_orientations` of `Product`.  With `lock_vertical` it returns
the two swaps of the first two edges; otherwise the list produced by
`itertools.permutations(self.dimensions)`, whose order is the lexicographic
order on index assignments. -/
def Product.get_orientations (p : Product) (lock_vertical : Bool) :
    List (ℚ × ℚ × ℚ) :=
  let d := p.dimensions
  if lock_vertical then
    [(d.1, d.2.1, d.2.2), (d.2.1, d.1, d.2.2)]
  else
    [(d.1, d.2.1, d.2.2), (d.1, d.2.2, d.2.1),
     (d.2.1, d.1, d.2.2), (d.2.1, d.2.2, d.1),
     (d.2.2, d.1, d.2.1), (d.2.2, d.2.1, d.1)]

/-- Method `calculate_quantity` of `PackingOptimizer`: feasibility test with
strict `>` against `dimensions.x`, `effective_y`, `dimensions.z`, then per-axis
floor counts and their product. -/
def calculate_quantity (c : Container) (o : ℚ × ℚ × ℚ) :
    ℤ × (ℤ × ℤ × ℤ) :=
  if o.1 > c.dimensions.x ∨ o.2.1 > c.effective_y ∨ o.2.2 > c.dimensions.z then
    (0, (0, 0, 0))
  else
    let count_x := ⌊c.dimensions.x / o.1⌋
    let count_y := ⌊c.effective_y / o.2.1⌋
    let count_z := ⌊c.dimensions.z / o.2.2⌋
    (count_x * count_y * count_z, (count_x, count_y, count_z))

/-- Python's `round` to the nearest integer: half rounds to even. -/
def pyRoundHalfEven (q : ℚ) : ℤ :=
  let f := ⌊q⌋
  let r := q - f
  if r < 1 / 2 then f
  else if 1 / 2 < r then f + 1
  else if f % 2 = 0 then f else f + 1

/-- Python's `round(q, 1)`: one decimal digit, half to even. -/
def pyRound1 (q : ℚ) : ℚ :=
  (pyRoundHalfEven (q * 10) : ℚ) / 10

/-- The per-orientation overhang in centimetres computed inside the loop of
`optimize`: `round(max(0, distribution[1] * orientation[1] - dimensions.y) * 100, 1)`. -/
def yOverhangCm (c : Container) (o : ℚ × ℚ × ℚ) (d : ℤ × ℤ × ℤ) : ℚ :=
  pyRound1 (max 0 ((d.2.1 : ℚ) * o.2.1 - c.dimensions.y) * 100)

/-- The mutable best-so-far attributes of a `PackingOptimizer` instance.
`best_overhang_cm` is `none` while the Python attribute is still unset. -/
structure OptState where
  best_orientation : Option (ℚ × ℚ × ℚ)
  best_count : ℤ
  best_distribution : ℤ × ℤ × ℤ
  best_overhang_cm : Option ℚ
  deriving DecidableEq, Repr

/-- The attribute values set by `PackingOptimizer.__init__`. -/
def initState : OptState :=
  { best_orientation := none
    best_count := 0
    best_distribution := (0, 0, 0)
    best_overhang_cm := none }

/-- The state written by the update branch of the loop of `optimize` when
orientation `o` beats the running best. -/
def updState (c : Container) (o : ℚ × ℚ × ℚ) : OptState :=
  { best_orientation := some o
    best_count := (calculate_quantity c o).1
    best_distribution := (calculate_quantity c o).2
    best_overhang_cm := some (yOverhangCm c o (calculate_quantity c o).2) }

/-- One iteration of the loop body of `optimize` acting on the best-so-far
state: the running best is replaced exactly when `total > self.best_count`. -/
def step (c : Container) (s : OptState) (o : ℚ × ℚ × ℚ) : OptState :=
  if s.best_count < (calculate_quantity c o).1 then updState c o else s

/-- The whole loop of `optimize` over the orientation list. -/
def runLoop (c : Container) (s : OptState) (l : List (ℚ × ℚ × ℚ)) : OptState :=
  l.foldl (step c) s

/-- One record of the `all_results` list built by `optimize`. -/
structure OrientationRecord where
  orientation : ℚ × ℚ × ℚ
  total : ℤ
  distribution : ℤ × ℤ × ℤ
  y_overhang_cm : ℚ
  deriving DecidableEq, Repr

/-- The `all_results` entry built for one orientation (state-independent). -/
def mkRecord (c : Container) (o : ℚ × ℚ × ℚ) : OrientationRecord :=
  { orientation := o
    total := (calculate_quantity c o).1
    distribution := (calculate_quantity c o).2
    y_overhang_cm := yOverhangCm c o (calculate_quantity c o).2 }

/-- Deterministic rendering of a rational, standing in for Python float
formatting (the spec makes the exact wording a presentation concern). -/
def fmtQ (q : ℚ) : String :=
  toString q.num ++ "/" ++ toString q.den

/-- Rendering of an orientation triple. -/
def fmtO (o : ℚ × ℚ × ℚ) : String :=
  "(" ++ fmtQ o.1 ++ ", " ++ fmtQ o.2.1 ++ ", " ++ fmtQ o.2.2 ++ ")"

/-- Rendering of a distribution triple. -/
def fmtD (d : ℤ × ℤ × ℤ) : String :=
  "(" ++ toString d.1 ++ ", " ++ toString d.2.1 ++ ", " ++ toString d.2.2 ++ ")"

/-- Rendering of an optional orientation (`None` when unset). -/
def fmtOO (o : Option (ℚ × ℚ × ℚ)) : String :=
  match o with
  | none => "None"
  | some o => fmtO o

/-- Rendering of an optional rational (`None` when unset). -/
def fmtOQ (q : Option ℚ) : String :=
  match q with
  | none => "None"
  | some q => fmtQ q

/-- The per-orientation line of the trace log. -/
def orientationLine (c : Container) (o : ℚ × ℚ × ℚ) : String :=
  "Orientação " ++ fmtO o ++ ": " ++ fmtD (calculate_quantity c o).2 ++
    " produtos por eixo, total = " ++ toString (calculate_quantity c o).1 ++ "\n"

/-- The full `log_text` of `optimize`: header, one line per orientation, and
the final verdict drawn from the final state. -/
def mkLog (c : Container) (l : List (ℚ × ℚ × ℚ)) (s : OptState) : String :=
  "Testando orientações:\n" ++
    String.join (l.map (orientationLine c)) ++
    (if s.best_count = 0 then
      "\nNenhuma orientação do produto cabe no contêiner."
    else
      "\nMelhor orientação encontrada:\n" ++
      "Produto orientado como: " ++ fmtOO s.best_orientation ++ "\n" ++
      "Quantidade por eixo (x, y, z): " ++ fmtD s.best_distribution ++ "\n" ++
      "Total de produtos que cabem: " ++ toString s.best_count ++ "\n" ++
      "Projeção além da gaiola: " ++ fmtOQ s.best_overhang_cm ++ " cm")

/-- The dictionary returned by `optimize`. -/
structure OptResult where
  best_orientation : Option (ℚ × ℚ × ℚ)
  best_count : ℤ
  best_distribution : ℤ × ℤ × ℤ
  overflow_y : Option ℚ
  all_results : List OrientationRecord
  log_text : String
  deriving DecidableEq, Repr

/-- The assignment `self.best_overhang_cm = 0` performed after the loop of
`optimize` when `self.best_count == 0`. -/
def adjust (s : OptState) : OptState :=
  if s.best_count = 0 then { s with best_overhang_cm := some 0 } else s

/-- The result dictionary built at the end of `optimize` from the orientation
list and the final attribute state. -/
def mkResult (c : Container) (l : List (ℚ × ℚ × ℚ)) (s : OptState) : OptResult :=
  { best_orientation := s.best_orientation
    best_count := s.best_count
    best_distribution := s.best_distribution
    overflow_y := s.best_overhang_cm
    all_results := l.map (mkRecord c)
    log_text := mkLog c l s }

/-- Method `optimize` of `PackingOptimizer`, as a function of the bound
container, product, flag and the instance's best-so-far state; it returns the
updated state together with the result dictionary. -/
def optimize (c : Container) (p : Product) (lock_vertical : Bool)
    (s : OptState) : OptState × OptResult :=
  let l := p.get_orientations lock_vertical
  let s2 := adjust (runLoop c s l)
  (s2, mkResult c l s2)

/-- Orientation `o` fits inside container `c` (the complement of the rejection
test at the top of `calculate_quantity`; an edge exactly equal to its bound
passes). -/
def feasible (c : Container) (o : ℚ × ℚ × ℚ) : Prop :=
  o.1 ≤ c.dimensions.x ∧ o.2.1 ≤ c.effective_y ∧ o.2.2 ≤ c.dimensions.z

instance (c : Container) (o : ℚ × ℚ × ℚ) : Decidable (feasible c o) := by
  unfold feasible; infer_instance

/-- The exact rational value of the IEEE-754 binary64 double denoted by the
Python literal `2.4` of the source's scenario inputs: the mantissa
5404319552844595 (the nearest 53-bit integer to 2.4 · 2⁵¹) at exponent −51.
Used to analyse where the program's float arithmetic departs from the
exact-fit arithmetic of the rest of this embedding. -/
def float64_2_4 : ℚ :=
  5404319552844595 / 2 ^ 51

/-- The exact rational value of the IEEE-754 binary64 double denoted by the
Python literal `0.2`: the mantissa 3602879701896397 at exponent −54. -/
def float64_0_2 : ℚ :=
  3602879701896397 / 2 ^ 54

unseal Rat.add Rat.mul Rat.inv Rat.sub Rat.ofScientific

set_option maxRecDepth 8000

/-- A positive divisor not exceeding the dividend gives a floor quotient of at
least one. -/
theorem one_le_floor_div (a b : ℚ) (hb : 0 < b) (h : b ≤ a) : 1 ≤ ⌊a / b⌋ := by
  rw [Int.le_floor, Int.cast_one]
  exact (one_le_div hb).mpr h

/-- Enlarging the dividend cannot shrink the floor quotient. -/
theorem floor_div_mono (a a' b : ℚ) (hb : 0 < b) (h : a ≤ a') : ⌊a / b⌋ ≤ ⌊a' / b⌋ :=
  Int.floor_le_floor (by gcongr)

/-- The rejection test of `calculate_quantity` is the negation of `feasible`. -/
theorem not_feasible_iff (c : Container) (o : ℚ × ℚ × ℚ) :
    ¬ feasible c o ↔
      (o.1 > c.dimensions.x ∨ o.2.1 > c.effective_y ∨ o.2.2 > c.dimensions.z) := by
  simp only [feasible, not_and_or, not_le, gt_iff_lt]

/-- On an infeasible orientation `calculate_quantity` returns all zeros. -/
theorem calculate_quantity_of_not_feasible (c : Container) (o : ℚ × ℚ × ℚ)
    (h : ¬ feasible c o) : calculate_quantity c o = (0, (0, 0, 0)) := by
  simp only [calculate_quantity]
  rw [if_pos ((not_feasible_iff c o).mp h)]

/-- On a feasible orientation `calculate_quantity` returns the three floor
counts and their product. -/
theorem calculate_quantity_of_feasible (c : Container) (o : ℚ × ℚ × ℚ)
    (h : feasible c o) :
    calculate_quantity c o =
      (⌊c.dimensions.x / o.1⌋ * ⌊c.effective_y / o.2.1⌋ * ⌊c.dimensions.z / o.2.2⌋,
       (⌊c.dimensions.x / o.1⌋, ⌊c.effective_y / o.2.1⌋, ⌊c.dimensions.z / o.2.2⌋)) := by
  simp only [calculate_quantity]
  rw [if_neg (fun hc => (not_feasible_iff c o).mpr hc h)]

/-- A feasible orientation with positive edges packs at least one unit. -/
theorem one_le_total_of_feasible (c : Container) (o : ℚ × ℚ × ℚ)
    (h1 : 0 < o.1) (h2 : 0 < o.2.1) (h3 : 0 < o.2.2) (hf : feasible c o) :
    1 ≤ (calculate_quantity c o).1 := by
  rw [calculate_quantity_of_feasible c o hf]
  dsimp only
  have a1 := one_le_floor_div _ _ h1 hf.1
  have a2 := one_le_floor_div _ _ h2 hf.2.1
  have a3 := one_le_floor_div _ _ h3 hf.2.2
  have hab : (1 : ℤ) * 1 ≤ ⌊c.dimensions.x / o.1⌋ * ⌊c.effective_y / o.2.1⌋ :=
    mul_le_mul a1 a2 zero_le_one (by linarith)
  have habc : (1 : ℤ) * 1 * 1 ≤
      ⌊c.dimensions.x / o.1⌋ * ⌊c.effective_y / o.2.1⌋ * ⌊c.dimensions.z / o.2.2⌋ :=
    mul_le_mul hab a3 zero_le_one (mul_nonneg (by linarith) (by linarith))
  linarith

/-- With positive edges the total of any orientation is non-negative. -/
theorem total_nonneg (c : Container) (o : ℚ × ℚ × ℚ)
    (h1 : 0 < o.1) (h2 : 0 < o.2.1) (h3 : 0 < o.2.2) :
    0 ≤ (calculate_quantity c o).1 := by
  by_cases hf : feasible c o
  · exact le_trans zero_le_one (one_le_total_of_feasible c o h1 h2 h3 hf)
  · rw [calculate_quantity_of_not_feasible c o hf]

/-- Componentwise enlarging the container bounds cannot shrink the total of a
fixed orientation with positive edges. -/
theorem total_mono (c c' : Container) (o : ℚ × ℚ × ℚ)
    (h1 : 0 < o.1) (h2 : 0 < o.2.1) (h3 : 0 < o.2.2)
    (hx : c.dimensions.x ≤ c'.dimensions.x)
    (hy : c.effective_y ≤ c'.effective_y)
    (hz : c.dimensions.z ≤ c'.dimensions.z) :
    (calculate_quantity c o).1 ≤ (calculate_quantity c' o).1 := by
  by_cases hf : feasible c o
  · have hf' : feasible c' o := ⟨hf.1.trans hx, hf.2.1.trans hy, hf.2.2.trans hz⟩
    rw [calculate_quantity_of_feasible c o hf, calculate_quantity_of_feasible c' o hf']
    dsimp only
    have a1 := one_le_floor_div _ _ h1 hf.1
    have a2 := one_le_floor_div _ _ h2 hf.2.1
    have a3 := one_le_floor_div _ _ h3 hf.2.2
    have b1 := floor_div_mono _ _ _ h1 hx
    have b2 := floor_div_mono _ _ _ h2 hy
    have b3 := floor_div_mono _ _ _ h3 hz
    have hab : ⌊c.dimensions.x / o.1⌋ * ⌊c.effective_y / o.2.1⌋ ≤
        ⌊c'.dimensions.x / o.1⌋ * ⌊c'.effective_y / o.2.1⌋ :=
      mul_le_mul b1 b2 (by linarith) (by linarith)
    exact mul_le_mul hab b3 (by linarith) (mul_nonneg (by linarith) (by linarith))
  · rw [calculate_quantity_of_not_feasible c o hf]
    exact total_nonneg c' o h1 h2 h3

/-- The loop body leaves the state unchanged when the orientation does not
strictly beat the running best. -/
theorem step_of_not_lt (c : Container) (s : OptState) (o : ℚ × ℚ × ℚ)
    (h : ¬ s.best_count < (calculate_quantity c o).1) : step c s o = s := by
  rw [step, if_neg h]

/-- The loop body installs the orientation when it strictly beats the running
best. -/
theorem step_of_lt (c : Container) (s : OptState) (o : ℚ × ℚ × ℚ)
    (h : s.best_count < (calculate_quantity c o).1) : step c s o = updState c o := by
  rw [step, if_pos h]

/-- The running best count after one loop iteration is the maximum of the old
best and the orientation's total. -/
theorem step_best_count (c : Container) (s : OptState) (o : ℚ × ℚ × ℚ) :
    (step c s o).best_count = max s.best_count (calculate_quantity c o).1 := by
  by_cases h : s.best_count < (calculate_quantity c o).1
  · rw [step_of_lt c s o h, max_eq_right h.le]; rfl
  · rw [step_of_not_lt c s o h, max_eq_left (not_lt.mp h)]

/-- Unfolding of the loop on an empty list. -/
theorem runLoop_nil (c : Container) (s : OptState) : runLoop c s [] = s := rfl

/-- Unfolding of the loop on a cons. -/
theorem runLoop_cons (c : Container) (s : OptState) (o : ℚ × ℚ × ℚ)
    (l : List (ℚ × ℚ × ℚ)) : runLoop c s (o :: l) = runLoop c (step c s o) l := rfl

/-- The running best count never decreases along the loop. -/
theorem le_runLoop_best_count (c : Container) (l : List (ℚ × ℚ × ℚ)) :
    ∀ s : OptState, s.best_count ≤ (runLoop c s l).best_count := by
  induction l with
  | nil => intro s; exact le_refl _
  | cons o l ih =>
      intro s
      rw [runLoop_cons]
      refine le_trans ?_ (ih (step c s o))
      rw [step_best_count]
      exact le_max_left _ _

/-- After the loop, the best count dominates the total of every orientation in
the list. -/
theorem total_le_runLoop_best_count (c : Container) (l : List (ℚ × ℚ × ℚ))
    (o : ℚ × ℚ × ℚ) (ho : o ∈ l) :
    ∀ s : OptState, (calculate_quantity c o).1 ≤ (runLoop c s l).best_count := by
  induction l with
  | nil => cases ho
  | cons a l ih =>
      intro s
      rw [runLoop_cons]
      rcases List.mem_cons.mp ho with h | h
      · subst h
        refine le_trans ?_ (le_runLoop_best_count c l (step c s o))
        rw [step_best_count]
        exact le_max_right _ _
      · exact ih h (step c s a)

/-- If the loop does not increase the best count, it changes nothing at all:
every update strictly increases the best count. -/
theorem runLoop_eq_self_of_best_count (c : Container) (l : List (ℚ × ℚ × ℚ)) :
    ∀ s : OptState, (runLoop c s l).best_count = s.best_count → runLoop c s l = s := by
  induction l with
  | nil => intro s _; rfl
  | cons o l ih =>
      intro s h
      rw [runLoop_cons] at h ⊢
      by_cases hlt : s.best_count < (calculate_quantity c o).1
      · exfalso
        have h1 : (step c s o).best_count ≤ (runLoop c (step c s o) l).best_count :=
          le_runLoop_best_count c l (step c s o)
        rw [step_of_lt c s o hlt] at h1 h
        have h2 : (updState c o).best_count = (calculate_quantity c o).1 := rfl
        omega
      · rw [step_of_not_lt c s o hlt] at h ⊢
        exact ih s h

/-- If no orientation in the list beats the incoming best count, the loop is
the identity on the state. -/
theorem runLoop_eq_self (c : Container) (l : List (ℚ × ℚ × ℚ)) :
    ∀ s : OptState, (∀ o ∈ l, (calculate_quantity c o).1 ≤ s.best_count) →
      runLoop c s l = s := by
  induction l with
  | nil => intro s _; rfl
  | cons o l ih =>
      intro s h
      rw [runLoop_cons, step_of_not_lt c s o (not_lt.mpr (h o (List.mem_cons_self o l)))]
      exact ih s fun a ha => h a (List.mem_cons_of_mem o ha)

/-- If the loop strictly increases the best count, the final state is exactly
the update record of the first orientation attaining the final best count. -/
theorem runLoop_first_max (c : Container) (l : List (ℚ × ℚ × ℚ)) :
    ∀ s : OptState, s.best_count < (runLoop c s l).best_count →
      ∃ o, o ∈ l ∧
        l.find? (fun a => decide ((runLoop c s l).best_count ≤ (calculate_quantity c a).1)) =
          some o ∧
        runLoop c s l = updState c o := by
  induction l with
  | nil => intro s h; exact absurd h (lt_irrefl _)
  | cons a l ih =>
      intro s h
      rw [runLoop_cons] at h ⊢
      by_cases ha : s.best_count < (calculate_quantity c a).1
      · by_cases h2 : (step c s a).best_count < (runLoop c (step c s a) l).best_count
        · obtain ⟨o, hmem, hfind, hstate⟩ := ih (step c s a) h2
          refine ⟨o, List.mem_cons_of_mem a hmem, ?_, hstate⟩
          rw [List.find?_cons_of_neg, hfind]
          simp only [decide_eq_true_eq, not_le]
          rw [step_of_lt c s a ha] at h2 ⊢
          exact h2
        · have hle : (step c s a).best_count ≤ (runLoop c (step c s a) l).best_count :=
            le_runLoop_best_count c l (step c s a)
          have heq : (runLoop c (step c s a) l).best_count = (step c s a).best_count :=
            le_antisymm (not_lt.mp h2) hle
          have hid := runLoop_eq_self_of_best_count c l (step c s a) heq
          refine ⟨a, List.mem_cons_self a l, ?_, by rw [hid, step_of_lt c s a ha]⟩
          rw [List.find?_cons_of_pos]
          simp only [decide_eq_true_eq]
          rw [heq, step_of_lt c s a ha]
          exact le_of_eq rfl
      · rw [step_of_not_lt c s a ha] at h ⊢
        obtain ⟨o, hmem, hfind, hstate⟩ := ih s h
        refine ⟨o, List.mem_cons_of_mem a hmem, ?_, hstate⟩
        rw [List.find?_cons_of_neg, hfind]
        simp only [decide_eq_true_eq, not_le]
        exact lt_of_le_of_lt (not_lt.mp ha) h

/-- Replacing the predicate of a find by one agreeing on all members leaves the
result unchanged. -/
theorem find?_congr_on {α : Type} (p q : α → Bool) (l : List α)
    (h : ∀ a ∈ l, p a = q a) : l.find? p = l.find? q := by
  induction l with
  | nil => rfl
  | cons a l ih =>
      simp only [List.find?, h a (List.mem_cons_self a l)]
      cases q a
      · exact ih fun x hx => h x (List.mem_cons_of_mem a hx)
      · rfl

/-- Every candidate orientation of a product with positive edges has positive
components. -/
theorem get_orientations_pos (p : Product) (lv : Bool)
    (h1 : 0 < p.dimensions.1) (h2 : 0 < p.dimensions.2.1) (h3 : 0 < p.dimensions.2.2) :
    ∀ o ∈ p.get_orientations lv, 0 < o.1 ∧ 0 < o.2.1 ∧ 0 < o.2.2 := by
  intro o ho
  cases lv with
  | true =>
      simp [Product.get_orientations] at ho
      rcases ho with rfl | rfl <;> refine ⟨?_, ?_, ?_⟩ <;> assumption
  | false =>
      simp [Product.get_orientations] at ho
      rcases ho with rfl | rfl | rfl | rfl | rfl | rfl <;>
        refine ⟨?_, ?_, ?_⟩ <;> assumption

/-- The identity assignment of edges to axes is always a candidate (it heads
both orientation lists). -/
theorem dims_mem_get_orientations (p : Product) (lv : Bool) :
    (p.dimensions.1, p.dimensions.2.1, p.dimensions.2.2) ∈ p.get_orientations lv := by
  cases lv <;> simp [Product.get_orientations]

/-- The after-loop assignment does not change the best count. -/
theorem adjust_best_count (s : OptState) : (adjust s).best_count = s.best_count := by
  unfold adjust; split <;> rfl

/-- The after-loop assignment does not change the best orientation. -/
theorem adjust_best_orientation (s : OptState) :
    (adjust s).best_orientation = s.best_orientation := by
  unfold adjust; split <;> rfl

/-- The after-loop assignment does not change the best distribution. -/
theorem adjust_best_distribution (s : OptState) :
    (adjust s).best_distribution = s.best_distribution := by
  unfold adjust; split <;> rfl

/-- With a non-zero best count, the after-loop assignment is skipped. -/
theorem adjust_of_ne (s : OptState) (h : s.best_count ≠ 0) : adjust s = s := by
  unfold adjust; rw [if_neg h]

/-- With best count zero, the after-loop assignment writes overhang zero. -/
theorem adjust_of_eq (s : OptState) (h : s.best_count = 0) :
    adjust s = { s with best_overhang_cm := some 0 } := by
  unfold adjust; rw [if_pos h]

/-- Unfolding of the result component of `optimize`. -/
theorem optimize_snd (c : Container) (p : Product) (lv : Bool) (s : OptState) :
    (optimize c p lv s).2 =
      mkResult c (p.get_orientations lv)
        (adjust (runLoop c s (p.get_orientations lv))) := rfl

/-- Unfolding of the state component of `optimize`. -/
theorem optimize_fst (c : Container) (p : Product) (lv : Bool) (s : OptState) :
    (optimize c p lv s).1 = adjust (runLoop c s (p.get_orientations lv)) := rfl

/-- The best count after the loop is the left fold of the maxima of the
per-orientation totals. -/
theorem runLoop_best_count_foldl (c : Container) (l : List (ℚ × ℚ × ℚ)) :
    ∀ s : OptState, (runLoop c s l).best_count =
      l.foldl (fun b o => max b (calculate_quantity c o).1) s.best_count := by
  induction l with
  | nil => intro s; rfl
  | cons o l ih =>
      intro s
      rw [runLoop_cons, List.foldl_cons, ih (step c s o), step_best_count]

/-- Folding maxima is monotone in the base and in the folded function. -/
theorem foldl_max_mono (f g : (ℚ × ℚ × ℚ) → ℤ) (l : List (ℚ × ℚ × ℚ))
    (h : ∀ o ∈ l, f o ≤ g o) :
    ∀ b b' : ℤ, b ≤ b' →
      l.foldl (fun acc o => max acc (f o)) b ≤ l.foldl (fun acc o => max acc (g o)) b' := by
  induction l with
  | nil => intro b b' hb; exact hb
  | cons a l ih =>
      intro b b' hb
      rw [List.foldl_cons, List.foldl_cons]
      exact ih (fun o ho => h o (List.mem_cons_of_mem a ho)) _ _
        (max_le_max hb (h a (List.mem_cons_self a l)))

/-- Componentwise enlarging the container enlarges the optimized best count
(the shared monotonicity core behind the spec's monotonicity property). -/
theorem optimize_best_count_mono (c c' : Container) (p : Product) (lv : Bool)
    (h1 : 0 < p.dimensions.1) (h2 : 0 < p.dimensions.2.1) (h3 : 0 < p.dimensions.2.2)
    (hx : c.dimensions.x ≤ c'.dimensions.x)
    (hy : c.effective_y ≤ c'.effective_y)
    (hz : c.dimensions.z ≤ c'.dimensions.z) :
    (optimize c p lv initState).2.best_count ≤ (optimize c' p lv initState).2.best_count := by
  have hl : ∀ o ∈ p.get_orientations lv,
      (calculate_quantity c o).1 ≤ (calculate_quantity c' o).1 := by
    intro o ho
    obtain ⟨q1, q2, q3⟩ := get_orientations_pos p lv h1 h2 h3 o ho
    exact total_mono c c' o q1 q2 q3 hx hy hz
  show (adjust (runLoop c initState (p.get_orientations lv))).best_count ≤
    (adjust (runLoop c' initState (p.get_orientations lv))).best_count
  rw [adjust_best_count, adjust_best_count, runLoop_best_count_foldl,
    runLoop_best_count_foldl]
  exact foldl_max_mono _ _ _ hl _ _ (le_refl _)

/-- C2: for every orientation with positive components, `calculate_quantity`
returns total 0 with distribution (0,0,0) exactly when an edge strictly
exceeds its bound (`dimensions.x`, `effective_y`, `dimensions.z`; equality
counts as fitting), and otherwise returns the three floor counts
`countX = floor(dimensions.x / ox)`, `countY = floor(effective_y / oy)`,
`countZ = floor(dimensions.z / oz)` with total their product. -/
theorem calculate_quantity_spec (c : Container) (o : ℚ × ℚ × ℚ)
    (h1 : 0 < o.1) (h2 : 0 < o.2.1) (h3 : 0 < o.2.2) :
    (calculate_quantity c o = (0, (0, 0, 0)) ↔
      (o.1 > c.dimensions.x ∨ o.2.1 > c.effective_y ∨ o.2.2 > c.dimensions.z)) ∧
    (o.1 ≤ c.dimensions.x → o.2.1 ≤ c.effective_y → o.2.2 ≤ c.dimensions.z →
      calculate_quantity c o =
        (⌊c.dimensions.x / o.1⌋ * ⌊c.effective_y / o.2.1⌋ * ⌊c.dimensions.z / o.2.2⌋,
         (⌊c.dimensions.x / o.1⌋, ⌊c.effective_y / o.2.1⌋, ⌊c.dimensions.z / o.2.2⌋))) := by
  refine ⟨⟨?_, ?_⟩, ?_⟩
  · intro heq
    by_contra hno
    have hf : feasible c o := by
      by_contra hf'
      exact hno ((not_feasible_iff c o).mp hf')
    have h10 := one_le_total_of_feasible c o h1 h2 h3 hf
    rw [heq] at h10
    exact absurd h10 (by decide)
  · intro hd
    exact calculate_quantity_of_not_feasible c o ((not_feasible_iff c o).mpr hd)
  · intro ha hb hc
    exact calculate_quantity_of_feasible c o ⟨ha, hb, hc⟩

/-- Witness for C2 at a concrete input: the edge 3 exceeds the container bound
2, so the orientation is rejected with all counts zero. -/
theorem calculate_quantity_spec_witness :
    (0 : ℚ) < 3 ∧ calculate_quantity (Container.init 2 2 2 0) (3, 1, 1) = (0, (0, 0, 0)) :=
  ⟨by decide,
    (calculate_quantity_spec (Container.init 2 2 2 0) (3, 1, 1)
      (by decide) (by decide) (by decide)).1.mpr (by decide)⟩

/-- C3: `get_orientations` with the lock returns exactly the two swaps of the
first two edges (third edge pinned), and without the lock exactly the six
index permutations in the fixed order of `itertools.permutations`, independent
of the numeric edge values. -/
theorem get_orientations_spec (p : Product) :
    p.get_orientations true =
      [(p.dimensions.1, p.dimensions.2.1, p.dimensions.2.2),
       (p.dimensions.2.1, p.dimensions.1, p.dimensions.2.2)] ∧
    p.get_orientations false =
      [(p.dimensions.1, p.dimensions.2.1, p.dimensions.2.2),
       (p.dimensions.1, p.dimensions.2.2, p.dimensions.2.1),
       (p.dimensions.2.1, p.dimensions.1, p.dimensions.2.2),
       (p.dimensions.2.1, p.dimensions.2.2, p.dimensions.1),
       (p.dimensions.2.2, p.dimensions.1, p.dimensions.2.1),
       (p.dimensions.2.2, p.dimensions.2.1, p.dimensions.1)] ∧
    (p.get_orientations true).length = 2 ∧ (p.get_orientations false).length = 6 :=
  ⟨rfl, rfl, rfl, rfl⟩

/-- C5 counterexample: constructing a container with a zero dimension and a
product with a negative edge succeeds (no exception path is ever taken), and
a zero-extent container silently optimizes to zero fits instead of failing
fast. -/
theorem init_unvalidated_cex :
    Container.initE 0 2 2 0 =
      Except.ok { dimensions := { x := 0, y := 2, z := 2 }, y_tolerance := 0 } ∧
    Product.initE (-1) 1 1 = Except.ok { dimensions := (-1, 1, 1) } ∧
    (optimize (Container.init 0 2 2 0) (Product.init 1 1 1) false initState).2.best_count = 0 :=
  ⟨rfl, rfl, by decide⟩

/-- C5 amended: the source constructors perform no validation at all —
`Container.__init__` and `Product.__init__` accept every rational input
(zero or negative dimensions, edges and tolerance included) and never raise. -/
theorem init_never_raises :
    (∀ x y z t : ℚ, Container.initE x y z t = Except.ok (Container.init x y z t)) ∧
    (∀ a b c : ℚ, Product.initE a b c = Except.ok (Product.init a b c)) :=
  ⟨fun _ _ _ _ => rfl, fun _ _ _ => rfl⟩

/-- C6: under the exact-fit arithmetic that the spec prescribes, the
scenario-A inputs — Container(2.2, 1.3, 2.4, tolerance 0.13) and
Product(1.38, 1.88, 0.2) with the vertical lock — give best count 12,
distribution (1, 1, 12) and orientation (1.88, 1.38, 0.2), exactly the
claimed values (first three conjuncts, evaluated on the embedding).

The remaining conjuncts locate the defect of the program at this input: the
Python code computes with binary64 doubles, `float64_2_4` and `float64_0_2`
are within half an ulp of 2.4 and 0.2 (so they are the values the program
stores for those literals), and their exact quotient lies in
[11, 12 − 2⁻⁵⁰): below the midpoint between 12 and its predecessor double
12 − 2⁻⁴⁹, so round-to-nearest division returns a double strictly below 12
and `math.floor(2.4/0.2)` yields 11 in the program — it returns best count
11 and distribution (1, 1, 11), while exact division gives
`floor(2.4/0.2) = 12` (last conjunct). -/
theorem optimize_scenario_a :
    ((optimize (Container.init 2.2 1.3 2.4 0.13) (Product.init 1.38 1.88 0.2) true
        initState).2.best_count = 12 ∧
     (optimize (Container.init 2.2 1.3 2.4 0.13) (Product.init 1.38 1.88 0.2) true
        initState).2.best_distribution = (1, 1, 12) ∧
     (optimize (Container.init 2.2 1.3 2.4 0.13) (Product.init 1.38 1.88 0.2) true
        initState).2.best_orientation = some (1.88, 1.38, 0.2)) ∧
    |(2.4 : ℚ) - float64_2_4| ≤ 1 / 2 ^ 52 ∧
    |(0.2 : ℚ) - float64_0_2| ≤ 1 / 2 ^ 55 ∧
    11 ≤ float64_2_4 / float64_0_2 ∧
    float64_2_4 / float64_0_2 < 12 - 1 / 2 ^ 50 ∧
    ⌊float64_2_4 / float64_0_2⌋ = 11 ∧
    ⌊(2.4 : ℚ) / 0.2⌋ = 12 := by
  refine ⟨⟨?_, ?_, ?_⟩, ?_, ?_, ?_, ?_, ?_, ?_⟩ <;> decide

/-- C1: on a valid container and product, a fresh `optimize` returns a best
count that is the maximum of the per-orientation totals over the candidate
sequence, and when it is positive the best orientation is a candidate whose
total attains it and the best distribution is that candidate's count triple. -/
theorem optimize_best_is_max (c : Container) (p : Product) (lv : Bool)
    (hcx : 0 < c.dimensions.x) (hcy : 0 < c.dimensions.y) (hcz : 0 < c.dimensions.z)
    (hct : 0 ≤ c.y_tolerance)
    (h1 : 0 < p.dimensions.1) (h2 : 0 < p.dimensions.2.1) (h3 : 0 < p.dimensions.2.2) :
    (∀ o ∈ p.get_orientations lv,
      (calculate_quantity c o).1 ≤ (optimize c p lv initState).2.best_count) ∧
    (∃ o ∈ p.get_orientations lv,
      (calculate_quantity c o).1 = (optimize c p lv initState).2.best_count) ∧
    (0 < (optimize c p lv initState).2.best_count →
      ∃ o ∈ p.get_orientations lv,
        (optimize c p lv initState).2.best_orientation = some o ∧
        (calculate_quantity c o).1 = (optimize c p lv initState).2.best_count ∧
        (optimize c p lv initState).2.best_distribution = (calculate_quantity c o).2) := by
  have hbc : (optimize c p lv initState).2.best_count =
      (runLoop c initState (p.get_orientations lv)).best_count := by
    rw [optimize_snd]
    exact adjust_best_count _
  have hbo : (optimize c p lv initState).2.best_orientation =
      (runLoop c initState (p.get_orientations lv)).best_orientation := by
    rw [optimize_snd]
    exact adjust_best_orientation _
  have hbd : (optimize c p lv initState).2.best_distribution =
      (runLoop c initState (p.get_orientations lv)).best_distribution := by
    rw [optimize_snd]
    exact adjust_best_distribution _
  refine ⟨?_, ?_, ?_⟩
  · intro o ho
    rw [hbc]
    exact total_le_runLoop_best_count c (p.get_orientations lv) o ho initState
  · rcases lt_or_eq_of_le (le_runLoop_best_count c (p.get_orientations lv) initState)
      with hlt | heq
    · obtain ⟨o, hmem, _, hstate⟩ :=
        runLoop_first_max c (p.get_orientations lv) initState hlt
      exact ⟨o, hmem, by rw [hbc, hstate]; rfl⟩
    · refine ⟨(p.dimensions.1, p.dimensions.2.1, p.dimensions.2.2),
        dims_mem_get_orientations p lv, ?_⟩
      have hz : (runLoop c initState (p.get_orientations lv)).best_count = 0 := by
        rw [← heq]
        rfl
      have hub := total_le_runLoop_best_count c (p.get_orientations lv)
        (p.dimensions.1, p.dimensions.2.1, p.dimensions.2.2)
        (dims_mem_get_orientations p lv) initState
      have hnn := total_nonneg c (p.dimensions.1, p.dimensions.2.1, p.dimensions.2.2)
        h1 h2 h3
      rw [hz] at hub
      rw [hbc, hz]
      omega
  · intro hpos
    have hlt : initState.best_count <
        (runLoop c initState (p.get_orientations lv)).best_count := by
      rw [hbc] at hpos
      exact hpos
    obtain ⟨o, hmem, _, hstate⟩ :=
      runLoop_first_max c (p.get_orientations lv) initState hlt
    refine ⟨o, hmem, ?_, ?_, ?_⟩
    · rw [hbo, hstate]
      rfl
    · rw [hbc, hstate]
      rfl
    · rw [hbd, hstate]
      rfl

/-- Witness for C1 on Container(3,3,3,0), Product(1,1,1), unlocked: some
candidate orientation attains the returned best count. -/
theorem optimize_best_is_max_witness :
    (0 : ℚ) < 3 ∧ (0 : ℚ) < 1 ∧
    (∃ o ∈ (Product.init 1 1 1).get_orientations false,
      (calculate_quantity (Container.init 3 3 3 0) o).1 =
        (optimize (Container.init 3 3 3 0) (Product.init 1 1 1) false
          initState).2.best_count) :=
  ⟨by decide, by decide,
    (optimize_best_is_max (Container.init 3 3 3 0) (Product.init 1 1 1) false
      (by decide) (by decide) (by decide) (by decide)
      (by decide) (by decide) (by decide)).2.1⟩

/-- C10: on a valid container and product, if some candidate orientation fits
(each edge at most its bound, the Y bound being `effective_y`), then a fresh
`optimize` returns a best count of at least one and a non-none best
orientation. -/
theorem optimize_feasible_positive (c : Container) (p : Product) (lv : Bool)
    (hcx : 0 < c.dimensions.x) (hcy : 0 < c.dimensions.y) (hcz : 0 < c.dimensions.z)
    (hct : 0 ≤ c.y_tolerance)
    (h1 : 0 < p.dimensions.1) (h2 : 0 < p.dimensions.2.1) (h3 : 0 < p.dimensions.2.2)
    (hfeas : ∃ o ∈ p.get_orientations lv,
      o.1 ≤ c.dimensions.x ∧ o.2.1 ≤ c.effective_y ∧ o.2.2 ≤ c.dimensions.z) :
    1 ≤ (optimize c p lv initState).2.best_count ∧
    (optimize c p lv initState).2.best_orientation ≠ none := by
  obtain ⟨o, hmem, hf⟩ := hfeas
  obtain ⟨q1, q2, q3⟩ := get_orientations_pos p lv h1 h2 h3 o hmem
  have h1t := one_le_total_of_feasible c o q1 q2 q3 hf
  have hub := total_le_runLoop_best_count c (p.get_orientations lv) o hmem initState
  have hbc : (optimize c p lv initState).2.best_count =
      (runLoop c initState (p.get_orientations lv)).best_count := by
    rw [optimize_snd]
    exact adjust_best_count _
  have hbo : (optimize c p lv initState).2.best_orientation =
      (runLoop c initState (p.get_orientations lv)).best_orientation := by
    rw [optimize_snd]
    exact adjust_best_orientation _
  constructor
  · rw [hbc]
    omega
  · have hlt : initState.best_count <
        (runLoop c initState (p.get_orientations lv)).best_count := by
      show (0 : ℤ) < _
      omega
    obtain ⟨o', _, _, hstate⟩ :=
      runLoop_first_max c (p.get_orientations lv) initState hlt
    rw [hbo, hstate]
    simp [updState]

/-- Witness for C10 on Container(3,3,3,0), Product(1,1,1), locked: the
identity orientation fits, so at least one unit is packed. -/
theorem optimize_feasible_positive_witness :
    (∃ o ∈ (Product.init 1 1 1).get_orientations true,
      o.1 ≤ (Container.init 3 3 3 0).dimensions.x ∧
      o.2.1 ≤ (Container.init 3 3 3 0).effective_y ∧
      o.2.2 ≤ (Container.init 3 3 3 0).dimensions.z) ∧
    1 ≤ (optimize (Container.init 3 3 3 0) (Product.init 1 1 1) true
        initState).2.best_count ∧
    (optimize (Container.init 3 3 3 0) (Product.init 1 1 1) true
        initState).2.best_orientation ≠ none :=
  ⟨by decide,
    optimize_feasible_positive (Container.init 3 3 3 0) (Product.init 1 1 1) true
      (by decide) (by decide) (by decide) (by decide)
      (by decide) (by decide) (by decide) (by decide)⟩

/-- C9: the loop replaces the running best exactly when an orientation's total
strictly exceeds the current best count, so when the returned best count is
positive the returned best orientation is the earliest candidate in generation
order whose total attains it. -/
theorem optimize_tie_break (c : Container) (p : Product) (lv : Bool) :
    (∀ (s : OptState) (o : ℚ × ℚ × ℚ),
      (calculate_quantity c o).1 ≤ s.best_count → step c s o = s) ∧
    (∀ (s : OptState) (o : ℚ × ℚ × ℚ),
      s.best_count < (calculate_quantity c o).1 → step c s o = updState c o) ∧
    (0 < (optimize c p lv initState).2.best_count →
      (p.get_orientations lv).find?
        (fun o => decide ((calculate_quantity c o).1 =
          (optimize c p lv initState).2.best_count)) =
      (optimize c p lv initState).2.best_orientation) := by
  have hbc : (optimize c p lv initState).2.best_count =
      (runLoop c initState (p.get_orientations lv)).best_count := by
    rw [optimize_snd]
    exact adjust_best_count _
  have hbo : (optimize c p lv initState).2.best_orientation =
      (runLoop c initState (p.get_orientations lv)).best_orientation := by
    rw [optimize_snd]
    exact adjust_best_orientation _
  refine ⟨fun s o h => step_of_not_lt c s o (not_lt.mpr h),
    fun s o h => step_of_lt c s o h, ?_⟩
  intro hpos
  have hlt : initState.best_count <
      (runLoop c initState (p.get_orientations lv)).best_count := by
    rw [hbc] at hpos
    exact hpos
  obtain ⟨o, hmem, hfind, hstate⟩ :=
    runLoop_first_max c (p.get_orientations lv) initState hlt
  rw [hbo, hbc, hstate]
  have hub : ∀ a ∈ p.get_orientations lv,
      (calculate_quantity c a).1 ≤ (updState c o).best_count := by
    intro a ha
    have h := total_le_runLoop_best_count c (p.get_orientations lv) a ha initState
    rwa [hstate] at h
  have hcong : ∀ a ∈ p.get_orientations lv,
      (fun a => decide ((calculate_quantity c a).1 = (updState c o).best_count)) a =
      (fun a => decide ((updState c o).best_count ≤ (calculate_quantity c a).1)) a := by
    intro a ha
    simp only [decide_eq_decide]
    constructor
    · intro h
      exact le_of_eq h.symm
    · intro h
      exact le_antisymm (hub a ha) h
  rw [find?_congr_on _ _ _ hcong]
  rw [hstate] at hfind
  exact hfind

/-- Witness for C9 on Container(3,3,3,0), Product(1,1,1), unlocked: all six
candidates tie at total 27 and the first one is returned. -/
theorem optimize_tie_break_witness :
    0 < (optimize (Container.init 3 3 3 0) (Product.init 1 1 1) false
        initState).2.best_count ∧
    ((Product.init 1 1 1).get_orientations false).find?
        (fun o => decide ((calculate_quantity (Container.init 3 3 3 0) o).1 =
          (optimize (Container.init 3 3 3 0) (Product.init 1 1 1) false
            initState).2.best_count)) =
      (optimize (Container.init 3 3 3 0) (Product.init 1 1 1) false
        initState).2.best_orientation :=
  ⟨by decide,
    (optimize_tie_break (Container.init 3 3 3 0) (Product.init 1 1 1) false).2.2
      (by decide)⟩

/-- C4: on a valid container and product, when the fresh best count is
positive the returned `overflow_y` is `max(0, bestDistribution.y *
bestOrientation.y - dimensions.y)` scaled by 100 and rounded to one decimal,
and when no orientation has positive total the result is all zeros with a
none orientation and overflow zero. -/
theorem optimize_overflow_spec (c : Container) (p : Product) (lv : Bool)
    (hcx : 0 < c.dimensions.x) (hcy : 0 < c.dimensions.y) (hcz : 0 < c.dimensions.z)
    (hct : 0 ≤ c.y_tolerance)
    (h1 : 0 < p.dimensions.1) (h2 : 0 < p.dimensions.2.1) (h3 : 0 < p.dimensions.2.2) :
    (0 < (optimize c p lv initState).2.best_count →
      ∃ o ∈ p.get_orientations lv,
        (optimize c p lv initState).2.best_orientation = some o ∧
        (optimize c p lv initState).2.overflow_y =
          some (pyRound1 (max 0
            (((optimize c p lv initState).2.best_distribution.2.1 : ℚ) * o.2.1 -
              c.dimensions.y) * 100))) ∧
    ((∀ o ∈ p.get_orientations lv, (calculate_quantity c o).1 ≤ 0) →
      (optimize c p lv initState).2.best_count = 0 ∧
      (optimize c p lv initState).2.best_orientation = none ∧
      (optimize c p lv initState).2.best_distribution = (0, 0, 0) ∧
      (optimize c p lv initState).2.overflow_y = some 0) := by
  have hbc : (optimize c p lv initState).2.best_count =
      (runLoop c initState (p.get_orientations lv)).best_count := by
    rw [optimize_snd]
    exact adjust_best_count _
  have hbo : (optimize c p lv initState).2.best_orientation =
      (runLoop c initState (p.get_orientations lv)).best_orientation := by
    rw [optimize_snd]
    exact adjust_best_orientation _
  have hbd : (optimize c p lv initState).2.best_distribution =
      (runLoop c initState (p.get_orientations lv)).best_distribution := by
    rw [optimize_snd]
    exact adjust_best_distribution _
  have hov : (optimize c p lv initState).2.overflow_y =
      (adjust (runLoop c initState (p.get_orientations lv))).best_overhang_cm := by
    rw [optimize_snd]
    rfl
  constructor
  · intro hpos
    have hlt : initState.best_count <
        (runLoop c initState (p.get_orientations lv)).best_count := by
      rw [hbc] at hpos
      exact hpos
    obtain ⟨o, hmem, _, hstate⟩ :=
      runLoop_first_max c (p.get_orientations lv) initState hlt
    have h0 : (0 : ℤ) < (runLoop c initState (p.get_orientations lv)).best_count := hlt
    have hadj : adjust (runLoop c initState (p.get_orientations lv)) =
        runLoop c initState (p.get_orientations lv) := adjust_of_ne _ (ne_of_gt h0)
    refine ⟨o, hmem, ?_, ?_⟩
    · rw [hbo, hstate]
      rfl
    · rw [hov, hadj, hstate, hbd, hstate]
      rfl
  · intro hall
    have hid : runLoop c initState (p.get_orientations lv) = initState :=
      runLoop_eq_self c (p.get_orientations lv) initState (fun o ho => hall o ho)
    have hadj : adjust (runLoop c initState (p.get_orientations lv)) =
        { initState with best_overhang_cm := some 0 } := by
      rw [hid]
      exact adjust_of_eq initState rfl
    refine ⟨?_, ?_, ?_, ?_⟩
    · rw [hbc, hid]
      rfl
    · rw [hbo, hid]
      rfl
    · rw [hbd, hid]
      rfl
    · rw [hov, hadj]

/-- Witness for C4 on scenario A: the best count 12 is positive and the
returned overflow is the rounded scaled overhang of the chosen orientation. -/
theorem optimize_overflow_spec_witness :
    0 < (optimize (Container.init 2.2 1.3 2.4 0.13) (Product.init 1.38 1.88 0.2)
        true initState).2.best_count ∧
    (∃ o ∈ (Product.init 1.38 1.88 0.2).get_orientations true,
      (optimize (Container.init 2.2 1.3 2.4 0.13) (Product.init 1.38 1.88 0.2)
          true initState).2.best_orientation = some o ∧
      (optimize (Container.init 2.2 1.3 2.4 0.13) (Product.init 1.38 1.88 0.2)
          true initState).2.overflow_y =
        some (pyRound1 (max 0
          (((optimize (Container.init 2.2 1.3 2.4 0.13) (Product.init 1.38 1.88 0.2)
              true initState).2.best_distribution.2.1 : ℚ) * o.2.1 -
            (Container.init 2.2 1.3 2.4 0.13).dimensions.y) * 100))) :=
  ⟨by decide,
    (optimize_overflow_spec (Container.init 2.2 1.3 2.4 0.13)
      (Product.init 1.38 1.88 0.2) true
      (by decide) (by decide) (by decide) (by decide)
      (by decide) (by decide) (by decide)).1 (by decide)⟩

/-- C7: calling `optimize` a second time on the same instance — that is,
starting from the attribute state left by the first call — returns a result
dictionary identical to the first one (all fields, `all_results` and
`log_text` included), even though the best-so-far attributes persist. -/
theorem optimize_idempotent (c : Container) (p : Product) (lv : Bool)
    (hcx : 0 < c.dimensions.x) (hcy : 0 < c.dimensions.y) (hcz : 0 < c.dimensions.z)
    (hct : 0 ≤ c.y_tolerance)
    (h1 : 0 < p.dimensions.1) (h2 : 0 < p.dimensions.2.1) (h3 : 0 < p.dimensions.2.2) :
    (optimize c p lv (optimize c p lv initState).1).2 =
      (optimize c p lv initState).2 := by
  have hub : ∀ o ∈ p.get_orientations lv,
      (calculate_quantity c o).1 ≤
        (adjust (runLoop c initState (p.get_orientations lv))).best_count := by
    intro o ho
    rw [adjust_best_count]
    exact total_le_runLoop_best_count c (p.get_orientations lv) o ho initState
  have hloop : runLoop c (adjust (runLoop c initState (p.get_orientations lv)))
      (p.get_orientations lv) =
      adjust (runLoop c initState (p.get_orientations lv)) :=
    runLoop_eq_self c (p.get_orientations lv) _ hub
  have hadj : adjust (adjust (runLoop c initState (p.get_orientations lv))) =
      adjust (runLoop c initState (p.get_orientations lv)) := by
    by_cases h0 : (runLoop c initState (p.get_orientations lv)).best_count = 0
    · rw [adjust_of_eq _ h0]
      exact adjust_of_eq _ h0
    · rw [adjust_of_ne _ h0, adjust_of_ne _ h0]
  show mkResult c (p.get_orientations lv)
      (adjust (runLoop c (adjust (runLoop c initState (p.get_orientations lv)))
        (p.get_orientations lv))) =
    mkResult c (p.get_orientations lv)
      (adjust (runLoop c initState (p.get_orientations lv)))
  rw [hloop, hadj]

/-- Witness for C7 on Container(3,3,3,0), Product(1,1,1), unlocked: the second
call returns the identical dictionary. -/
theorem optimize_idempotent_witness :
    (0 : ℚ) < 3 ∧
    (optimize (Container.init 3 3 3 0) (Product.init 1 1 1) false
        (optimize (Container.init 3 3 3 0) (Product.init 1 1 1) false initState).1).2 =
      (optimize (Container.init 3 3 3 0) (Product.init 1 1 1) false initState).2 :=
  ⟨by decide,
    optimize_idempotent (Container.init 3 3 3 0) (Product.init 1 1 1) false
      (by decide) (by decide) (by decide) (by decide)
      (by decide) (by decide) (by decide)⟩

/-- C8: for a valid product, flag, and two valid containers agreeing on the
tolerance and on two dimensions with the remaining dimension no smaller, the
fresh best count on the larger container is no smaller. -/
theorem optimize_monotone_container (c c' : Container) (p : Product) (lv : Bool)
    (hc : 0 < c.dimensions.x ∧ 0 < c.dimensions.y ∧ 0 < c.dimensions.z ∧
      0 ≤ c.y_tolerance)
    (hc' : 0 < c'.dimensions.x ∧ 0 < c'.dimensions.y ∧ 0 < c'.dimensions.z ∧
      0 ≤ c'.y_tolerance)
    (hp : 0 < p.dimensions.1 ∧ 0 < p.dimensions.2.1 ∧ 0 < p.dimensions.2.2)
    (htol : c.y_tolerance = c'.y_tolerance)
    (hdim : (c.dimensions.x ≤ c'.dimensions.x ∧ c.dimensions.y = c'.dimensions.y ∧
        c.dimensions.z = c'.dimensions.z) ∨
      (c.dimensions.x = c'.dimensions.x ∧ c.dimensions.y ≤ c'.dimensions.y ∧
        c.dimensions.z = c'.dimensions.z) ∨
      (c.dimensions.x = c'.dimensions.x ∧ c.dimensions.y = c'.dimensions.y ∧
        c.dimensions.z ≤ c'.dimensions.z)) :
    (optimize c p lv initState).2.best_count ≤
      (optimize c' p lv initState).2.best_count := by
  have heff : ∀ hy : c.dimensions.y ≤ c'.dimensions.y,
      c.effective_y ≤ c'.effective_y := by
    intro hy
    unfold Container.effective_y
    rw [htol]
    exact add_le_add_right hy _
  rcases hdim with ⟨hx, hy, hz⟩ | ⟨hx, hy, hz⟩ | ⟨hx, hy, hz⟩
  · exact optimize_best_count_mono c c' p lv hp.1 hp.2.1 hp.2.2
      hx (heff (le_of_eq hy)) (le_of_eq hz)
  · exact optimize_best_count_mono c c' p lv hp.1 hp.2.1 hp.2.2
      (le_of_eq hx) (heff hy) (le_of_eq hz)
  · exact optimize_best_count_mono c c' p lv hp.1 hp.2.1 hp.2.2
      (le_of_eq hx) (heff (le_of_eq hy)) hz

/-- Witness for C8: growing the x dimension of a 2-cube container to 3 does
not decrease the best count for a unit product. -/
theorem optimize_monotone_container_witness :
    (Container.init 2 2 2 0).dimensions.x ≤ (Container.init 3 2 2 0).dimensions.x ∧
    (optimize (Container.init 2 2 2 0) (Product.init 1 1 1) false
        initState).2.best_count ≤
      (optimize (Container.init 3 2 2 0) (Product.init 1 1 1) false
        initState).2.best_count :=
  ⟨by decide,
    optimize_monotone_container (Container.init 2 2 2 0) (Container.init 3 2 2 0)
      (Product.init 1 1 1) false
      (by decide) (by decide) (by decide) (by decide) (by decide)⟩

end Alocacao
